import Mathlib

/-!
Verification of the contract-review pipeline's three core components
(risk rule evaluator, PDF section segmenter, playbook lookup) against
their natural-language specification.

The Python source is shallowly embedded: dictionaries become association
lists, Python numbers (ints and floats, used here only in comparisons)
become `ℚ`, and Python truthiness is modelled explicitly where the source
relies on it (`elif cap_months:`, `if uptime and ...`, `if not playbook:`,
`if not term_standards:`).
-/

namespace ContractReviewer

/-! ## Risk rule evaluator (src/tools/risk_matrix.py) -/

/-- One entry of the rule table: `{"condition": ..., "risk_level": ...,
"score": ..., "description": ...}`. -/
structure RiskRule where
  condition : String
  risk_level : String
  score : ℤ
  description : String
deriving DecidableEq, Repr

/-- The `limitation_of_liability` entries of the rule table. -/
def liabilityRules : List RiskRule :=
  [⟨"no_cap", "critical", 10, "No liability cap found (unlimited liability)."⟩,
   ⟨"cap_lt_12_months", "high", 8, "Liability cap is less than 12 months of fees."⟩,
   ⟨"cap_lt_24_months", "medium", 5, "Liability cap is less than 24 months of fees."⟩]

/-- The `data_privacy` entries of the rule table. -/
def dataPrivacyRules : List RiskRule :=
  [⟨"vendor_owns_data", "critical", 10, "Vendor claims ownership of customer data."⟩,
   ⟨"no_privacy_clause", "critical", 9, "No data privacy or protection clause found."⟩,
   ⟨"ambiguous_ownership", "high", 8, "Data ownership is ambiguous."⟩]

/-- The `service_level_agreement` entries of the rule table. -/
def slaRules : List RiskRule :=
  [⟨"missing_sla", "critical", 10, "No Service Level Agreement (SLA) found."⟩,
   ⟨"uptime_lt_99", "high", 8, "Uptime guarantee is less than 99%."⟩,
   ⟨"weak_remedies", "medium", 6, "Weak remedies for downtime (e.g., no credits)."⟩]

/-- The `termination` entries of the rule table. -/
def terminationRules : List RiskRule :=
  [⟨"vendor_terminate_no_cause", "critical", 9, "Vendor can terminate without cause, but customer cannot."⟩,
   ⟨"short_notice", "high", 7, "Termination notice period is very short (< 30 days)."⟩]

/-- The `payment_terms` entries of the rule table. -/
def paymentRules : List RiskRule :=
  [⟨"payment_upfront", "high", 7, "Full payment required in advance."⟩,
   ⟨"net_gt_45", "medium", 4, "Payment terms > Net 45."⟩]

/-- The `non_compete` entries of the rule table. -/
def nonCompeteRules : List RiskRule :=
  [⟨"unlimited_scope", "critical", 10, "Unlimited geography or duration for non-compete."⟩,
   ⟨"duration_gt_2_years", "high", 8, "Non-compete duration > 2 years."⟩]

/-- The fixed rule table `self.rules` built in `RiskMatrix.__init__`,
as an association list in the source's insertion order. -/
def rulesList : List (String × List RiskRule) :=
  [("limitation_of_liability", liabilityRules),
   ("data_privacy", dataPrivacyRules),
   ("service_level_agreement", slaRules),
   ("termination", terminationRules),
   ("payment_terms", paymentRules),
   ("non_compete", nonCompeteRules)]

/-- The `extracted_terms` dictionary, restricted to the keys the evaluator
reads.  `cap_months_fees` and `uptime_percentage` carry Python numbers
(`ℚ` models both ints and floats exactly for the comparisons performed);
`none` means the key is absent.  `has_cap` is only ever tested with
`is False`, so `some false` models the Python value `False` and
`some true` any other present value.  `missing` is only ever tested for
truthiness, so a `Bool` records whether the stored value is truthy
(an absent key reads as the falsy `None`). -/
structure Terms where
  cap_months_fees : Option ℚ
  has_cap : Option Bool
  missing : Bool
  uptime_percentage : Option ℚ
deriving DecidableEq, Repr

/-- A value of the result dictionary of `evaluate_risk`: a string, a
number, or a list of triggered rules. -/
inductive JVal where
  | s : String → JVal
  | n : ℤ → JVal
  | fs : List RiskRule → JVal
deriving DecidableEq, Repr

/-- `RiskMatrix._add_factor`: look up the first rule with the given
condition key and append it to the factor list (append nothing when the
key is not in the table). -/
def addFactor (factors : List RiskRule) (rules : List RiskRule) (key : String) : List RiskRule :=
  match rules.find? (fun r => r.condition == key) with
  | some r => factors ++ [r]
  | none => factors

/-- Python's `max(xs, key=lambda x: x["score"])` on a nonempty factor
list: the fold keeps the earlier element on ties, so the first element
with the maximal score wins. -/
def maxByScore (f : RiskRule) (fs : List RiskRule) : RiskRule :=
  fs.foldl (fun b r => if r.score > b.score then r else b) f

/-- Python's `max(f["score"] for f in risk_factors)` on a nonempty list. -/
def maxScore (x : ℤ) (xs : List ℤ) : ℤ :=
  xs.foldl max x

/-- The factor-matching middle of `RiskMatrix.evaluate_risk`: the
`risk_factors` list accumulated for a known clause type.  Truthiness of
`cap_months` (`elif cap_months:`) and of `uptime`
(`if uptime and uptime < 99.0`) is the explicit `≠ 0` test; absence is
the `none` case. -/
def riskFactorsFor (clause_type : String) (s : Terms) (relevant : List RiskRule) : List RiskRule :=
  if clause_type = "limitation_of_liability" then
    if s.cap_months_fees = none ∧ s.has_cap = some false then
      addFactor [] relevant "no_cap"
    else
      match s.cap_months_fees with
      | some c =>
        if c ≠ 0 then
          if c < 12 then addFactor [] relevant "cap_lt_12_months"
          else if c < 24 then addFactor [] relevant "cap_lt_24_months"
          else []
        else []
      | none => []
  else if clause_type = "service_level_agreement" then
    if s.missing then addFactor [] relevant "missing_sla"
    else
      match s.uptime_percentage with
      | some u => if u ≠ 0 ∧ u < 99 then addFactor [] relevant "uptime_lt_99" else []
      | none => []
  else []

/-- `RiskMatrix.evaluate_risk`, returning the result dictionary as an
association list (the two outcome shapes of the source use different
keys, so the dictionary itself is the faithful return type). -/
def evaluateRisk (clause_type : String) (s : Terms) : List (String × JVal) :=
  match List.lookup clause_type rulesList with
  | none => [("risk_level", JVal.s "unknown"), ("score", JVal.n 0), ("factors", JVal.fs [])]
  | some relevant =>
    let risk_factors := riskFactorsFor clause_type s relevant
    match risk_factors with
    | [] => [("risk_level", JVal.s "low"), ("risk_score", JVal.n 1), ("risk_factors", JVal.fs [])]
    | f :: fs =>
      [("risk_level", JVal.s (maxByScore f fs).risk_level),
       ("risk_score", JVal.n (maxScore f.score (fs.map RiskRule.score))),
       ("risk_factors", JVal.fs (f :: fs))]

/-- The `risk_factors` field of a known-clause-type result (and `[]` on
the unknown-tag result, which has no such key). -/
def riskFactorsOf (r : List (String × JVal)) : List RiskRule :=
  match List.lookup "risk_factors" r with
  | some (JVal.fs l) => l
  | _ => []

example :
    evaluateRisk "limitation_of_liability" ⟨some 6, none, false, none⟩ =
      [("risk_level", JVal.s "high"), ("risk_score", JVal.n 8),
       ("risk_factors", JVal.fs [⟨"cap_lt_12_months", "high", 8, "Liability cap is less than 12 months of fees."⟩])] := by
  decide

example :
    evaluateRisk "limitation_of_liability" ⟨none, some false, false, none⟩ =
      [("risk_level", JVal.s "critical"), ("risk_score", JVal.n 10),
       ("risk_factors", JVal.fs [⟨"no_cap", "critical", 10, "No liability cap found (unlimited liability)."⟩])] := by
  decide

example :
    evaluateRisk "limitation_of_liability" ⟨some 0, none, false, none⟩ =
      [("risk_level", JVal.s "low"), ("risk_score", JVal.n 1), ("risk_factors", JVal.fs [])] := by
  decide

/-! ## Section segmenter (src/tools/pdf_parser.py, `_extract_sections`)

Text is modelled as `List Char` (ASCII documents; `str.strip`,
`str.isupper` and `str.startswith` are modelled at that granularity). -/

/-- Whitespace stripped by Python's `str.strip()` (ASCII range). -/
def pySpace (c : Char) : Bool :=
  c = ' ' || c = '\t' || c = '\n' || c = '\x0b' || c = '\x0c' || c = '\r'

/-- Python's `line.strip()`: drop whitespace from both ends. -/
def pyStrip (l : List Char) : List Char :=
  ((l.dropWhile pySpace).reverse.dropWhile pySpace).reverse

/-- A cased character (for ASCII, a letter), as used by `str.isupper`. -/
def casedChar (c : Char) : Bool :=
  c.isUpper || c.isLower

/-- Python's `s.isupper()`: at least one cased character, and every cased
character is upper-case. -/
def pyIsUpper (l : List Char) : Bool :=
  l.any casedChar && l.all (fun c => !casedChar c || c.isUpper)

/-- The literal token tuple of the source's `stripped.startswith((...))`. -/
def headerTokens : List (List Char) :=
  ["1.", "2.", "3.", "4.", "5.", "6.", "7.", "8.", "9.", "10.",
   "SECTION", "ARTICLE"].map String.toList

/-- `stripped.startswith(tuple)`: some token is a prefix of the line. -/
def startsWithAny (l : List Char) (ts : List (List Char)) : Bool :=
  ts.any (fun t => t.isPrefixOf l)

/-- The header test of `_extract_sections`:
`(stripped.isupper() and len(stripped) < 100) or stripped.startswith((...))`. -/
def isHeaderLine (line : List Char) : Bool :=
  let stripped := pyStrip line
  (pyIsUpper stripped && decide (stripped.length < 100)) || startsWithAny stripped headerTokens

/-- A section record `{"title": ..., "text": ...}`. -/
structure PdfSection where
  title : List Char
  text : List Char
deriving DecidableEq, Repr

/-- Append `current_section` to the output list when one is open. -/
def flushCur (secs : List PdfSection) (cur : Option PdfSection) : List PdfSection :=
  match cur with
  | some s => secs ++ [s]
  | none => secs

/-- One iteration of the `for line in lines` loop: state is the emitted
sections plus the open accumulator. -/
def stepLine (st : List PdfSection × Option PdfSection) (line : List Char) :
    List PdfSection × Option PdfSection :=
  if isHeaderLine line then
    (flushCur st.1 st.2, some ⟨pyStrip line, []⟩)
  else
    match st.2 with
    | some s => (st.1, some ⟨s.title, s.text ++ line ++ ['\n']⟩)
    | none => (st.1, none)

/-- Python's `text.split('\n')`. -/
def splitLines : List Char → List (List Char)
  | [] => [[]]
  | c :: rest =>
    match splitLines rest with
    | [] => [[c]]
    | l :: ls => if c = '\n' then [] :: l :: ls else (c :: l) :: ls

/-- `DocumentParser._extract_sections`: split into lines, fold the loop,
emit the final open accumulator. -/
def extractSections (text : List Char) : List PdfSection :=
  let st := (splitLines text).foldl stepLine ([], none)
  flushCur st.1 st.2

/-- Concatenation of a list of lines, each terminated by a newline. -/
def joinNL (ls : List (List Char)) : List Char :=
  (ls.map (fun l => l ++ ['\n'])).flatten

/-- Concatenation of the emitted section bodies, in order. -/
def allBodies (secs : List PdfSection) : List Char :=
  (secs.map PdfSection.text).flatten

example :
    extractSections (String.toList "intro\nSECTION 1\nbody a\nbody b\n2. Next\ntail") =
      [⟨String.toList "SECTION 1", String.toList "body a\nbody b\n"⟩,
       ⟨String.toList "2. Next", String.toList "tail\n"⟩] := by
  decide

/-! ## Playbook lookup (src/mcp/playbook_server.py) -/

/-- A JSON value, as loaded by `json.load` for playbooks. -/
inductive Json where
  | null : Json
  | b : Bool → Json
  | num : ℚ → Json
  | str : String → Json
  | arr : List Json → Json
  | obj : List (String × Json) → Json
deriving Repr

/-- Python truthiness of a JSON value (`if not playbook`,
`if not term_standards`). -/
def Json.truthy : Json → Bool
  | .null => false
  | .b v => v
  | .num q => q != 0
  | .str s => s != ""
  | .arr xs => !xs.isEmpty
  | .obj kvs => !kvs.isEmpty

/-- The not-found outcome `{"error": "Playbook not found"}`. -/
def notFoundDict : List (String × Json) :=
  [("error", Json.str "Playbook not found")]

/-- The unknown-clause outcome
`{"status": "unknown_clause", "message": ...}`. -/
def unknownClauseDict : List (String × Json) :=
  [("status", Json.str "unknown_clause"),
   ("message", Json.str "No standard defined for this clause.")]

/-- The success outcome `{"standards": ..., "actual_value": ...,
"instruction": ...}`. -/
def successDict (standards : Json) (actual_value : String) : List (String × Json) :=
  [("standards", standards),
   ("actual_value", Json.str actual_value),
   ("instruction", Json.str "Compare \x27actual_value\x27 against \x27standards\x27 to determine deviation.")]

/-- `PlaybookServer.compare_term`.  The server state `playbooks` maps a
contract-type tag to the playbook loaded by `json.load` (playbook files
are JSON objects, modelled as their key-value lists).  The result is the
returned dictionary; `none` models the one unhandled path, where a
present `preferred_terms` value is not a JSON object and the attribute
access `.get(clause_type)` on it raises. -/
def compareTerm (playbooks : List (String × List (String × Json)))
    (contract_type clause_type actual_value : String) :
    Option (List (String × Json)) :=
  match List.lookup contract_type playbooks with
  | none => some notFoundDict
  | some playbook =>
    if playbook.isEmpty then some notFoundDict
    else
      match List.lookup "preferred_terms" playbook with
      | none => some unknownClauseDict
      | some (Json.obj pts) =>
        match List.lookup clause_type pts with
        | none => some unknownClauseDict
        | some v => if v.truthy then some (successDict v actual_value) else some unknownClauseDict
      | some _ => none

example :
    compareTerm [("saas", [("preferred_terms", Json.obj [("termination", Json.str "30 days")])])]
      "saas" "termination" "60 days" =
      some (successDict (Json.str "30 days") "60 days") := rfl

example :
    compareTerm [] "saas" "termination" "60 days" = some notFoundDict := rfl

/-! ## Claim-side predicates

These restate spec sentences in the spec's own words, to be compared
with the embedded code. -/

/-- The spec's `limitation_of_liability` precedence steps, read off the
claim: (1) absent cap and `has_cap` false gives `no_cap`; (2) otherwise a
present cap `< 12` gives `cap_lt_12_months`; (3) otherwise a present cap
`< 24` gives `cap_lt_24_months`; (4) otherwise no factor. -/
def liabilitySpecSteps (s : Terms) (fs : List RiskRule) : Prop :=
  if s.cap_months_fees = none ∧ s.has_cap = some false then
    ∃ r, fs = [r] ∧ r.condition = "no_cap" ∧ r.risk_level = "critical" ∧ r.score = 10
  else
    match s.cap_months_fees with
    | some c =>
      if c < 12 then
        ∃ r, fs = [r] ∧ r.condition = "cap_lt_12_months" ∧ r.risk_level = "high" ∧ r.score = 8
      else if c < 24 then
        ∃ r, fs = [r] ∧ r.condition = "cap_lt_24_months" ∧ r.risk_level = "medium" ∧ r.score = 5
      else fs = []
    | none => fs = []

/-- The liability precedence as the code actually implements it: steps 2
and 3 additionally require the cap value to be truthy (nonzero), because
the source guards them with `elif cap_months:`. -/
def liabilityAmendedSteps (s : Terms) (fs : List RiskRule) : Prop :=
  if s.cap_months_fees = none ∧ s.has_cap = some false then
    ∃ r, fs = [r] ∧ r.condition = "no_cap" ∧ r.risk_level = "critical" ∧ r.score = 10
  else
    match s.cap_months_fees with
    | some c =>
      if c ≠ 0 ∧ c < 12 then
        ∃ r, fs = [r] ∧ r.condition = "cap_lt_12_months" ∧ r.risk_level = "high" ∧ r.score = 8
      else if c ≠ 0 ∧ c < 24 then
        ∃ r, fs = [r] ∧ r.condition = "cap_lt_24_months" ∧ r.risk_level = "medium" ∧ r.score = 5
      else fs = []
    | none => fs = []

/-- The spec's `service_level_agreement` steps, read off the claim:
(1) `missing` true gives `missing_sla` and skips the uptime check;
(2) otherwise a present `uptime_percentage < 99.0` gives `uptime_lt_99`;
(3) otherwise no factor. -/
def slaSpecSteps (s : Terms) (fs : List RiskRule) : Prop :=
  if s.missing then
    ∃ r, fs = [r] ∧ r.condition = "missing_sla" ∧ r.risk_level = "critical" ∧ r.score = 10
  else
    match s.uptime_percentage with
    | some u =>
      if u < 99 then
        ∃ r, fs = [r] ∧ r.condition = "uptime_lt_99" ∧ r.risk_level = "high" ∧ r.score = 8
      else fs = []
    | none => fs = []

/-- The SLA steps as the code actually implements them: step 2
additionally requires the uptime value to be truthy (nonzero), because
the source guards it with `if uptime and uptime < 99.0:`. -/
def slaAmendedSteps (s : Terms) (fs : List RiskRule) : Prop :=
  if s.missing then
    ∃ r, fs = [r] ∧ r.condition = "missing_sla" ∧ r.risk_level = "critical" ∧ r.score = 10
  else
    match s.uptime_percentage with
    | some u =>
      if u ≠ 0 ∧ u < 99 then
        ∃ r, fs = [r] ∧ r.condition = "uptime_lt_99" ∧ r.risk_level = "high" ∧ r.score = 8
      else fs = []
    | none => fs = []

/-! ## Supporting lemmas -/

/-- On a known clause type, the `risk_factors` field of the result is the
factor list the matching logic accumulated. -/
theorem riskFactorsOf_evaluateRisk (ct : String) (s : Terms) (rs : List RiskRule)
    (h : List.lookup ct rulesList = some rs) :
    riskFactorsOf (evaluateRisk ct s) = riskFactorsFor ct s rs := by
  simp only [evaluateRisk, h]
  cases hf : riskFactorsFor ct s rs <;> rfl

/-! ## Claims -/

/-- C1 counterexample: with `cap_months_fees` present and equal to `0`
(so `< 12`), the claim's step 2 announces `cap_lt_12_months`, but the
source's `elif cap_months:` treats the falsy `0` as absent and triggers
nothing. -/
theorem liability_precedence_counterexample :
    ¬ liabilitySpecSteps ⟨some 0, none, false, none⟩
        (riskFactorsOf (evaluateRisk "limitation_of_liability" ⟨some 0, none, false, none⟩)) := by
  have h : riskFactorsOf (evaluateRisk "limitation_of_liability" ⟨some 0, none, false, none⟩) = [] := rfl
  rw [h]
  simp [liabilitySpecSteps]

/-- C1 (amended): the liability precedence holds with steps 2 and 3
restricted to truthy (nonzero) cap values: `no_cap` when the cap is
absent and `has_cap` is false; else `cap_lt_12_months` for a present
nonzero cap `< 12`; else `cap_lt_24_months` for a present nonzero cap
`< 24`; else no factor. -/
theorem liability_precedence_amended (s : Terms) :
    liabilityAmendedSteps s
      (riskFactorsOf (evaluateRisk "limitation_of_liability" s)) := by
  obtain ⟨cap, hc, m, u⟩ := s
  rw [riskFactorsOf_evaluateRisk "limitation_of_liability" _ liabilityRules rfl]
  rcases cap with _ | c
  · rcases hc with _ | b
    · simp [liabilityAmendedSteps, riskFactorsFor]
    · cases b
      · exact ⟨_, rfl, rfl, rfl, rfl⟩
      · simp [liabilityAmendedSteps, riskFactorsFor]
  · by_cases h0 : c = 0
    · subst h0
      simp [liabilityAmendedSteps, riskFactorsFor]
    · by_cases h12 : c < 12
      · simp only [liabilityAmendedSteps, riskFactorsFor, h0, h12]
        simp [addFactor, liabilityRules, h0, h12]
      · by_cases h24 : c < 24
        · simp only [liabilityAmendedSteps, riskFactorsFor, h0, h12]
          simp [addFactor, liabilityRules, h0, h12, h24]
        · simp [liabilityAmendedSteps, riskFactorsFor, h0, h12, h24]

/-- C2 counterexample: with `missing` falsy and `uptime_percentage`
present and equal to `0.0` (so `< 99.0`), the claim's step 2 announces
`uptime_lt_99`, but the source's `if uptime and uptime < 99.0:` treats
the falsy `0.0` as absent and triggers nothing. -/
theorem sla_precedence_counterexample :
    ¬ slaSpecSteps ⟨none, none, false, some 0⟩
        (riskFactorsOf (evaluateRisk "service_level_agreement" ⟨none, none, false, some 0⟩)) := by
  have h : riskFactorsOf (evaluateRisk "service_level_agreement" ⟨none, none, false, some 0⟩) = [] := rfl
  rw [h]
  simp [slaSpecSteps]

/-- C2 (amended): the SLA precedence holds with step 2 restricted to
truthy (nonzero) uptime values: a truthy `missing` triggers only
`missing_sla` (uptime is ignored even when present); otherwise a present
nonzero `uptime_percentage < 99.0` triggers `uptime_lt_99`; otherwise no
factor. -/
theorem sla_precedence_amended (s : Terms) :
    slaAmendedSteps s
      (riskFactorsOf (evaluateRisk "service_level_agreement" s)) := by
  obtain ⟨cap, hc, m, u⟩ := s
  rw [riskFactorsOf_evaluateRisk "service_level_agreement" _ slaRules rfl]
  cases m
  · rcases u with _ | v
    · simp [slaAmendedSteps, riskFactorsFor]
    · by_cases h0 : v = 0
      · subst h0
        simp [slaAmendedSteps, riskFactorsFor]
      · by_cases h99 : v < 99
        · simp only [slaAmendedSteps, riskFactorsFor]
          simp [addFactor, slaRules, h0, h99]
        · simp [slaAmendedSteps, riskFactorsFor, h0, h99]
  · exact ⟨_, rfl, rfl, rfl, rfl⟩

/-- C4: the four known clause types without matching logic always return
no factor, score 1, level low, although each of their rule-table entries
carries score at least 4. -/
theorem other_known_types_default (ct : String)
    (h : ct ∈ ["data_privacy", "termination", "payment_terms", "non_compete"]) (s : Terms) :
    evaluateRisk ct s =
      [("risk_level", JVal.s "low"), ("risk_score", JVal.n 1), ("risk_factors", JVal.fs [])] ∧
    ∀ r ∈ (List.lookup ct rulesList).getD [], 4 ≤ r.score := by
  fin_cases h <;> exact ⟨rfl, by decide⟩

/-- C4 witness at `data_privacy` and an empty signals record. -/
theorem other_known_types_default_witness :
    evaluateRisk "data_privacy" ⟨none, none, false, none⟩ =
      [("risk_level", JVal.s "low"), ("risk_score", JVal.n 1), ("risk_factors", JVal.fs [])] ∧
    ∀ r ∈ (List.lookup "data_privacy" rulesList).getD [], 4 ≤ r.score :=
  other_known_types_default "data_privacy" (by decide) ⟨none, none, false, none⟩

/-- C5: a clause-type tag outside the rule table yields the terminal
unknown outcome, and the table's keys are exactly the six listed tags. -/
theorem unknown_clause_type_terminal (ct : String) (s : Terms)
    (h : List.lookup ct rulesList = none) :
    evaluateRisk ct s =
      [("risk_level", JVal.s "unknown"), ("score", JVal.n 0), ("factors", JVal.fs [])] ∧
    rulesList.map Prod.fst =
      ["limitation_of_liability", "data_privacy", "service_level_agreement",
       "termination", "payment_terms", "non_compete"] :=
  ⟨by simp [evaluateRisk, h], rfl⟩

/-- C5 witness at the tag `totally_unknown_tag`. -/
theorem unknown_clause_type_terminal_witness :
    evaluateRisk "totally_unknown_tag" ⟨none, none, false, none⟩ =
      [("risk_level", JVal.s "unknown"), ("score", JVal.n 0), ("factors", JVal.fs [])] ∧
    rulesList.map Prod.fst =
      ["limitation_of_liability", "data_privacy", "service_level_agreement",
       "termination", "payment_terms", "non_compete"] :=
  unknown_clause_type_terminal "totally_unknown_tag" ⟨none, none, false, none⟩ rfl

/-- C10: the unknown outcome's keys are `risk_level`, `score`, `factors`;
the known outcome's keys are `risk_level`, `risk_score`, `risk_factors`;
only `risk_level` is common, and `risk_score`/`risk_factors` are present
exactly on known-tag results. -/
theorem result_field_names (ct : String) (s : Terms) :
    (evaluateRisk ct s).map Prod.fst =
      (if (List.lookup ct rulesList).isSome then ["risk_level", "risk_score", "risk_factors"]
       else ["risk_level", "score", "factors"]) ∧
    (List.lookup "risk_score" (evaluateRisk ct s)).isSome = (List.lookup ct rulesList).isSome ∧
    (List.lookup "risk_factors" (evaluateRisk ct s)).isSome = (List.lookup ct rulesList).isSome ∧
    ["risk_level", "score", "factors"].inter ["risk_level", "risk_score", "risk_factors"] =
      ["risk_level"] := by
  cases h : List.lookup ct rulesList with
  | none =>
    refine ⟨?_, ?_, ?_, by decide⟩ <;> simp only [evaluateRisk, h] <;> rfl
  | some rs =>
    simp only [evaluateRisk, h]
    cases riskFactorsFor ct s rs <;> exact ⟨rfl, rfl, rfl, by decide⟩

/-! ## Banding (claim C9) -/

/-- The fixed score-to-level banding of the spec: critical 9-10, high
7-8, medium 4-6, low 1-3. -/
def bandOK (lv : String) (sc : ℤ) : Prop :=
  (lv = "critical" ∧ 9 ≤ sc ∧ sc ≤ 10) ∨ (lv = "high" ∧ 7 ≤ sc ∧ sc ≤ 8) ∨
  (lv = "medium" ∧ 4 ≤ sc ∧ sc ≤ 6) ∨ (lv = "low" ∧ 1 ≤ sc ∧ sc ≤ 3)

instance (lv : String) (sc : ℤ) : Decidable (bandOK lv sc) := by
  unfold bandOK; infer_instance

/-- `_add_factor` starting from an empty list appends at most one rule,
drawn from its rule list. -/
theorem addFactor_nil_cases (rules : List RiskRule) (key : String) :
    addFactor [] rules key = [] ∨ ∃ r, addFactor [] rules key = [r] ∧ r ∈ rules := by
  unfold addFactor
  cases h : rules.find? (fun r => r.condition == key) with
  | none => exact Or.inl rfl
  | some r => exact Or.inr ⟨r, rfl, List.mem_of_find?_eq_some h⟩

/-- The matching logic accumulates at most one factor, and any factor it
accumulates comes from the clause type's rule list. -/
theorem riskFactorsFor_cases (ct : String) (s : Terms) (rs : List RiskRule) :
    riskFactorsFor ct s rs = [] ∨ ∃ r, riskFactorsFor ct s rs = [r] ∧ r ∈ rs := by
  obtain ⟨cap, hc, m, u⟩ := s
  unfold riskFactorsFor
  rcases cap with _ | c <;> rcases u with _ | v <;> cases m <;> dsimp only <;> split_ifs <;>
    first
      | exact Or.inl rfl
      | exact addFactor_nil_cases rs _

/-- Every rule of the table has a level consistent with its score under
the fixed banding. -/
theorem lookup_rulesList_band (ct : String) (rs : List RiskRule)
    (h : List.lookup ct rulesList = some rs) :
    ∀ r ∈ rs, bandOK r.risk_level r.score := by
  simp only [rulesList, List.lookup] at h
  repeat' split at h
  all_goals try cases h
  all_goals decide

/-- C9: on every known clause type the returned level and score agree
with the fixed banding (critical 9-10, high 7-8, medium 4-6, low 1-3). -/
theorem level_score_banding (ct : String) (s : Terms) (rs : List RiskRule)
    (h : List.lookup ct rulesList = some rs) :
    ∃ lv sc, List.lookup "risk_level" (evaluateRisk ct s) = some (JVal.s lv) ∧
      List.lookup "risk_score" (evaluateRisk ct s) = some (JVal.n sc) ∧ bandOK lv sc := by
  have hband := lookup_rulesList_band ct rs h
  rcases riskFactorsFor_cases ct s rs with h0 | ⟨r, h1, hm⟩
  · refine ⟨"low", 1, ?_, ?_, ?_⟩
    · simp only [evaluateRisk, h, h0]; rfl
    · simp only [evaluateRisk, h, h0]; rfl
    · right; right; right; exact ⟨rfl, by norm_num⟩
  · refine ⟨r.risk_level, r.score, ?_, ?_, hband r hm⟩
    · simp only [evaluateRisk, h, h1]; rfl
    · simp only [evaluateRisk, h, h1]; rfl

/-- C9 witness at `limitation_of_liability` with an uncapped-liability
signals record. -/
theorem level_score_banding_witness :
    ∃ lv sc,
      List.lookup "risk_level"
          (evaluateRisk "limitation_of_liability" ⟨none, some false, false, none⟩) =
        some (JVal.s lv) ∧
      List.lookup "risk_score"
          (evaluateRisk "limitation_of_liability" ⟨none, some false, false, none⟩) =
        some (JVal.n sc) ∧ bandOK lv sc :=
  level_score_banding "limitation_of_liability" ⟨none, some false, false, none⟩ liabilityRules rfl

/-! ## Playbook claims (C6, C7) -/

/-- A loaded playbook whose `preferred_terms` mapping has an entry for
`termination`, but the entry is the falsy empty object. -/
def playbooksC6 : List (String × List (String × Json)) :=
  [("saas", [("preferred_terms", Json.obj [("termination", Json.obj [])])])]

/-- C6 counterexample: the `saas` playbook's `preferred_terms` contains
an entry for `termination`, yet `compare_term` returns the
unknown-clause outcome, because the source's `if not term_standards:`
rejects the falsy empty-object entry. -/
theorem compare_term_success_counterexample :
    List.lookup "saas" playbooksC6 =
      some [("preferred_terms", Json.obj [("termination", Json.obj [])])] ∧
    compareTerm playbooksC6 "saas" "termination" "30 days" = some unknownClauseDict ∧
    some unknownClauseDict ≠ some (successDict (Json.obj []) "30 days") := by
  refine ⟨rfl, rfl, ?_⟩
  intro h
  have h2 := congrArg (fun o => (o.getD []).map Prod.fst) h
  exact absurd h2 (by decide)

/-- C6 (amended): when the loaded playbook's `preferred_terms` mapping
contains a truthy entry for the clause-type tag, `compare_term` returns
the success record carrying that entry, the unchanged input value, and
the fixed comparison hint; the lookup never performs the comparison
itself. -/
theorem compare_term_success_amended (pbs : List (String × List (String × Json)))
    (ct clause actual : String) (pb pts : List (String × Json)) (v : Json)
    (hpb : List.lookup ct pbs = some pb)
    (hpt : List.lookup "preferred_terms" pb = some (Json.obj pts))
    (hv : List.lookup clause pts = some v)
    (htruthy : v.truthy = true) :
    compareTerm pbs ct clause actual = some (successDict v actual) := by
  have hne : pb.isEmpty = false := by
    cases pb
    · simp [List.lookup] at hpt
    · rfl
  simp [compareTerm, hpb, hne, hpt, hv, htruthy]

/-- A loaded playbook with one truthy preferred-terms entry. -/
def playbooksC6W : List (String × List (String × Json)) :=
  [("nda", [("preferred_terms", Json.obj [("non_compete", Json.str "12 months")])])]

/-- C6 witness: a concrete successful lookup. -/
theorem compare_term_success_amended_witness :
    compareTerm playbooksC6W "nda" "non_compete" "24 months" =
      some (successDict (Json.str "12 months") "24 months") :=
  compare_term_success_amended playbooksC6W "nda" "non_compete" "24 months"
    [("preferred_terms", Json.obj [("non_compete", Json.str "12 months")])]
    [("non_compete", Json.str "12 months")] (Json.str "12 months") rfl rfl rfl rfl

/-- A loaded playbook whose dictionary is empty (hence falsy). -/
def playbooksC7 : List (String × List (String × Json)) :=
  [("msa", [])]

/-- C7 counterexample: `msa` has a loaded playbook with no entry for the
clause, yet `compare_term` returns the not-found outcome instead of the
unknown-clause outcome, because `if not playbook:` treats the loaded
empty dictionary as missing. -/
theorem compare_term_negative_counterexample :
    List.lookup "msa" playbooksC7 = some [] ∧
    compareTerm playbooksC7 "msa" "payment_terms" "Net 60" = some notFoundDict ∧
    some notFoundDict ≠ some unknownClauseDict := by
  refine ⟨rfl, rfl, ?_⟩
  intro h
  have h2 := congrArg (fun o => (o.getD []).length) h
  exact absurd h2 (by decide)

/-- C7 (amended): an unloaded contract-type tag, and also a loaded but
empty (falsy) playbook dictionary, give the not-found outcome; a loaded
non-empty playbook with no `preferred_terms` entry for the clause gives
the unknown-clause outcome; when every present `preferred_terms` value
is a JSON object the call never raises; the two negative outcomes are
distinguishable by their tags. -/
theorem compare_term_negative_amended (pbs : List (String × List (String × Json)))
    (ct clause actual : String) :
    (List.lookup ct pbs = none → compareTerm pbs ct clause actual = some notFoundDict) ∧
    (∀ pb, List.lookup ct pbs = some pb → pb.isEmpty = true →
      compareTerm pbs ct clause actual = some notFoundDict) ∧
    (∀ pb, List.lookup ct pbs = some pb → pb.isEmpty = false →
      List.lookup "preferred_terms" pb = none →
      compareTerm pbs ct clause actual = some unknownClauseDict) ∧
    (∀ pb pts, List.lookup ct pbs = some pb → pb.isEmpty = false →
      List.lookup "preferred_terms" pb = some (Json.obj pts) →
      List.lookup clause pts = none →
      compareTerm pbs ct clause actual = some unknownClauseDict) ∧
    (∀ pb, List.lookup ct pbs = some pb →
      (∀ j, List.lookup "preferred_terms" pb = some j → ∃ kvs, j = Json.obj kvs) →
      compareTerm pbs ct clause actual ≠ none) ∧
    notFoundDict ≠ unknownClauseDict := by
  refine ⟨?_, ?_, ?_, ?_, ?_, ?_⟩
  · intro h; simp [compareTerm, h]
  · intro pb hpb he; simp [compareTerm, hpb, he]
  · intro pb hpb he hpt; simp [compareTerm, hpb, he, hpt]
  · intro pb pts hpb he hpt hv; simp [compareTerm, hpb, he, hpt, hv]
  · intro pb hpb hobj
    simp only [compareTerm, hpb]
    by_cases he : pb.isEmpty
    · simp [he]
    · simp only [he]
      cases hpt : List.lookup "preferred_terms" pb with
      | none => simp
      | some j =>
        obtain ⟨kvs, rfl⟩ := hobj j hpt
        cases hv : List.lookup clause kvs with
        | none => simp [hv]
        | some v => by_cases ht : v.truthy <;> simp [hv, ht]
  · intro h
    have h2 := congrArg List.length h
    exact absurd h2 (by decide)

/-- C7 witness: the empty-playbook path returns the not-found outcome. -/
theorem compare_term_negative_amended_witness :
    compareTerm playbooksC7 "msa" "limitation_of_liability" "cap" = some notFoundDict :=
  (compare_term_negative_amended playbooksC7 "msa" "limitation_of_liability" "cap").2.1 [] rfl rfl

/-! ## Segmenter claims (C8, C3) -/

/-- The claim's reading of "entirely upper-case" (Python `isupper`):
some cased character occurs, and every cased character is upper-case. -/
def entirelyUpper (l : List Char) : Prop :=
  (∃ c ∈ l, casedChar c = true) ∧ ∀ c ∈ l, casedChar c = true → c.isUpper = true

/-- The claim's header-line condition: the stripped form is entirely
upper-case and shorter than 100 characters, or starts with one of the
literal tokens (case-sensitive). -/
def claimHeader (line : List Char) : Prop :=
  (entirelyUpper (pyStrip line) ∧ (pyStrip line).length < 100) ∨
  ∃ t ∈ headerTokens, ∃ rest, pyStrip line = t ++ rest

/-- `str.isupper` agrees with the claim's reading. -/
theorem pyIsUpper_iff (l : List Char) : pyIsUpper l = true ↔ entirelyUpper l := by
  simp only [pyIsUpper, entirelyUpper, Bool.and_eq_true, List.any_eq_true, List.all_eq_true,
    Bool.or_eq_true, Bool.not_eq_true']
  constructor
  · rintro ⟨h1, h2⟩
    refine ⟨h1, fun c hc hcase => ?_⟩
    rcases h2 c hc with h | h
    · rw [hcase] at h; cases h
    · exact h
  · rintro ⟨h1, h2⟩
    refine ⟨h1, fun c hc => ?_⟩
    by_cases hcase : casedChar c = true
    · exact Or.inr (h2 c hc hcase)
    · exact Or.inl (by simpa using hcase)

/-- `t.isPrefixOf l` holds exactly when `l` extends `t`. -/
theorem isPrefixOf_eq_append (t l : List Char) :
    t.isPrefixOf l = true ↔ ∃ rest, l = t ++ rest := by
  induction t generalizing l with
  | nil => simp [List.isPrefixOf]
  | cons c cs ih =>
    cases l with
    | nil => simp [List.isPrefixOf]
    | cons d ds =>
      simp only [List.isPrefixOf, Bool.and_eq_true, beq_iff_eq, ih, List.cons_append,
        List.cons.injEq]
      constructor
      · rintro ⟨hcd, rest, hrest⟩
        exact ⟨rest, hcd.symm, hrest⟩
      · rintro ⟨rest, hdc, hrest⟩
        exact ⟨hdc.symm, rest, hrest⟩

/-- `str.startswith` on a token tuple agrees with the claim's reading. -/
theorem startsWithAny_iff (l : List Char) (ts : List (List Char)) :
    startsWithAny l ts = true ↔ ∃ t ∈ ts, ∃ rest, l = t ++ rest := by
  simp only [startsWithAny, List.any_eq_true, isPrefixOf_eq_append]

/-- C8: a line is classified as a header exactly when the claim's
condition holds on its stripped form, and on a header line the loop
emits the open accumulator (if any) and opens a new section titled with
the stripped line and an empty body. -/
theorem header_classification (secs : List PdfSection) (cur : Option PdfSection)
    (line : List Char) :
    (isHeaderLine line = true ↔ claimHeader line) ∧
    (claimHeader line →
      stepLine (secs, cur) line = (flushCur secs cur, some ⟨pyStrip line, []⟩)) := by
  have hiff : isHeaderLine line = true ↔ claimHeader line := by
    simp only [isHeaderLine, claimHeader, Bool.or_eq_true, Bool.and_eq_true,
      decide_eq_true_iff, pyIsUpper_iff, startsWithAny_iff]
  refine ⟨hiff, fun h => ?_⟩
  have hb : isHeaderLine line = true := hiff.mpr h
  simp [stepLine, hb]

/-- C8 witness: a concrete header line starting a new section. -/
theorem header_classification_witness :
    stepLine ([], none) (String.toList "SECTION 1 - SCOPE") =
      ([], some ⟨String.toList "SECTION 1 - SCOPE", []⟩) := by
  have h := header_classification [] none (String.toList "SECTION 1 - SCOPE")
  exact h.2 (h.1.mp (by decide))

/-- The loop of `_extract_sections` followed by the final flush. -/
def runLoop (st : List PdfSection × Option PdfSection) (lines : List (List Char)) :
    List PdfSection :=
  let st2 := lines.foldl stepLine st
  flushCur st2.1 st2.2

theorem joinNL_append (a b : List (List Char)) : joinNL (a ++ b) = joinNL a ++ joinNL b := by
  simp [joinNL]

/-- Running the loop with an open accumulator: the final bodies are the
already-emitted bodies, then the accumulator's body, then every
remaining non-header line. -/
theorem runLoop_bodies_some (lines : List (List Char)) (secs : List PdfSection)
    (s : PdfSection) :
    allBodies (runLoop (secs, some s) lines) =
      allBodies secs ++ s.text ++ joinNL (lines.filter (fun l => !isHeaderLine l)) := by
  induction lines generalizing secs s with
  | nil => simp [runLoop, flushCur, allBodies, joinNL]
  | cons l ls ih =>
    by_cases hl : isHeaderLine l = true
    · have hstep : stepLine (secs, some s) l = (secs ++ [s], some ⟨pyStrip l, []⟩) := by
        simp [stepLine, hl, flushCur]
      simp only [runLoop, List.foldl_cons, hstep] at ih ⊢
      rw [ih]
      simp [allBodies, List.filter_cons, hl, List.append_assoc]
    · have hstep : stepLine (secs, some s) l = (secs, some ⟨s.title, s.text ++ l ++ ['\n']⟩) := by
        simp [stepLine, hl]
      simp only [runLoop, List.foldl_cons, hstep] at ih ⊢
      rw [ih]
      simp [List.filter_cons, hl, joinNL, List.append_assoc]

/-- Running the loop with no open accumulator: leading non-header lines
are discarded; the bodies gather the non-header lines after the first
header. -/
theorem runLoop_bodies_none (lines : List (List Char)) (secs : List PdfSection) :
    allBodies (runLoop (secs, none) lines) =
      allBodies secs ++
        joinNL (((lines.dropWhile (fun l => !isHeaderLine l)).filter
          (fun l => !isHeaderLine l))) := by
  induction lines generalizing secs with
  | nil => simp [runLoop, flushCur, joinNL]
  | cons l ls ih =>
    by_cases hl : isHeaderLine l = true
    · have hstep : stepLine (secs, none) l = (secs, some ⟨pyStrip l, []⟩) := by
        simp [stepLine, hl, flushCur]
      simp only [runLoop, List.foldl_cons, hstep]
      have := runLoop_bodies_some ls secs ⟨pyStrip l, []⟩
      simp only [runLoop] at this
      rw [this]
      simp [List.dropWhile_cons, hl, List.filter_cons]
    · have hstep : stepLine (secs, none) l = (secs, none) := by
        simp [stepLine, hl]
      simp only [runLoop, List.foldl_cons, hstep] at ih ⊢
      rw [ih]
      simp [List.dropWhile_cons, hl]

/-- C3: segmenter coverage.  The discarded lines before the first header
followed by the emitted section bodies reconstruct, in order, exactly
the non-header lines of the input; header lines are consumed as titles. -/
theorem segmenter_coverage (text : List Char) :
    joinNL ((splitLines text).takeWhile (fun l => !isHeaderLine l)) ++
      allBodies (extractSections text) =
    joinNL ((splitLines text).filter (fun l => !isHeaderLine l)) := by
  have hrun : extractSections text = runLoop ([], none) (splitLines text) := rfl
  rw [hrun, runLoop_bodies_none]
  generalize splitLines text = lines
  have hsplit := List.takeWhile_append_dropWhile (p := fun l => !isHeaderLine l) (l := lines)
  conv_rhs => rw [← hsplit]
  rw [List.filter_append]
  have htake : (lines.takeWhile (fun l => !isHeaderLine l)).filter (fun l => !isHeaderLine l) =
      lines.takeWhile (fun l => !isHeaderLine l) :=
    List.filter_eq_self.mpr
      (fun a ha => List.mem_takeWhile_imp (p := fun l => !isHeaderLine l) (l := lines) ha)
  rw [htake, joinNL_append]
  simp [allBodies]

end ContractReviewer
